import Mathlib

/-!
# Micropantry backend: the Cloud Functions of `functions/index.js`

A shallow embedding of the six exported functions of `functions/index.js`
(`createUserProfile`, `addPantryItem`, `updatePantryItem`, `createShoppingList`,
`addItemToShoppingList`, `removeItemFromShoppingList`) together with the part of the
Firestore Admin SDK and of the `functions.https.onCall` wrapper that they call.

* Plain data (request payloads, stored documents, results) is `DVal`.
* Values handed to the SDK for writing are `JsVal`: plain data plus JavaScript
  `undefined` and the two `FieldValue` sentinels the source uses.
* The store is a function from document paths to documents; every SDK call is a
  function returning its result together with the store it leaves behind, so that a
  failing call states explicitly which store it leaves.
* The commit timestamp and the auto-generated document id are inputs (`Env`).
* A handler is the `async` function of the source; the exported callable is
  `onCall handler`, which is what a caller observes.

The SDK is modelled by what it does with the calls the source makes: `doc`, `set`,
`add`, `update`, `get`, the validation of the data passed to a write (no `undefined`,
no sentinel inside an array, update keys read as field paths), and the two transforms.
Numbers are integers: the handlers never do arithmetic, they only test a number for
being falsy (zero) and store it.  Backend quotas (document size, nesting depth) and
concurrent invocations are not modelled: every call runs alone on the store.
-/

namespace Micropantry

/-! ## Values -/

/-- Plain data: JSON values plus Firestore timestamps. -/
inductive DVal where
  | null
  | bool (b : Bool)
  | num (n : Int)
  | str (s : String)
  | ts (t : Nat)
  | arr (xs : List DVal)
  | map (fs : List (String × DVal))

/-- Values a handler passes to the SDK: plain data, `undefined`, and the sentinels
`FieldValue.serverTimestamp()` and `FieldValue.arrayUnion(...elems)`. -/
inductive JsVal where
  | undefined
  | null
  | bool (b : Bool)
  | num (n : Int)
  | str (s : String)
  | ts (t : Nat)
  | arr (xs : List JsVal)
  | obj (fs : List (String × JsVal))
  | serverTimestamp
  | arrayUnion (elems : List JsVal)

/-- A document (or a map value): its fields in order. -/
abbrev Fields := List (String × DVal)

/-- Property lookup `obj[k]`; `none` is JavaScript `undefined`. -/
def getField (k : String) : Fields → Option DVal
  | [] => none
  | (k', v) :: rest => if k' = k then some v else getField k rest

/-- Assign field `k`, replacing an existing field of that name or adding a new one. -/
def setField (k : String) (v : DVal) : Fields → Fields
  | [] => [(k, v)]
  | (k', v') :: rest => if k' = k then (k, v) :: rest else (k', v') :: setField k v rest

mutual
/-- Value equality of stored data, as used by the `arrayUnion` transform. -/
def DVal.beq : DVal → DVal → Bool
  | .null, .null => true
  | .bool a, .bool b => a == b
  | .num a, .num b => a == b
  | .str a, .str b => a == b
  | .ts a, .ts b => a == b
  | .arr xs, .arr ys => DVal.beqList xs ys
  | .map fs, .map gs => DVal.beqFields fs gs
  | _, _ => false
/-- Pointwise `DVal.beq` on arrays. -/
def DVal.beqList : List DVal → List DVal → Bool
  | [], [] => true
  | x :: xs, y :: ys => DVal.beq x y && DVal.beqList xs ys
  | _, _ => false
/-- Pointwise `DVal.beq` on field lists. -/
def DVal.beqFields : List (String × DVal) → List (String × DVal) → Bool
  | [], [] => true
  | (k, x) :: xs, (l, y) :: ys => k == l && DVal.beq x y && DVal.beqFields xs ys
  | _, _ => false
end

mutual
/-- Plain data seen as a JavaScript value (what `doc.data()` and the request decoder
hand to a handler). -/
def DVal.toJs : DVal → JsVal
  | .null => .null
  | .bool b => .bool b
  | .num n => .num n
  | .str s => .str s
  | .ts t => .ts t
  | .arr xs => .arr (DVal.toJsList xs)
  | .map fs => .obj (DVal.toJsFields fs)
/-- Elementwise `DVal.toJs`. -/
def DVal.toJsList : List DVal → List JsVal
  | [] => []
  | x :: xs => DVal.toJs x :: DVal.toJsList xs
/-- Fieldwise `DVal.toJs`. -/
def DVal.toJsFields : List (String × DVal) → List (String × JsVal)
  | [] => []
  | (k, x) :: xs => (k, DVal.toJs x) :: DVal.toJsFields xs
end

mutual
/-- `DVal.beq` only accepts equal values. -/
theorem DVal.beq_eq : ∀ (a b : DVal), DVal.beq a b = true → a = b
  | .null, b => by cases b <;> simp [DVal.beq]
  | .bool x, b => by cases b <;> simp [DVal.beq]
  | .num x, b => by cases b <;> simp [DVal.beq]
  | .str x, b => by cases b <;> simp [DVal.beq]
  | .ts x, b => by cases b <;> simp [DVal.beq]
  | .arr xs, b => by
    cases b <;> simp [DVal.beq]
    exact DVal.beqList_eq xs _
  | .map fs, b => by
    cases b <;> simp [DVal.beq]
    exact DVal.beqFields_eq fs _
/-- `DVal.beqList` only accepts equal arrays. -/
theorem DVal.beqList_eq : ∀ (xs ys : List DVal), DVal.beqList xs ys = true → xs = ys
  | [], ys => by cases ys <;> simp [DVal.beqList]
  | x :: xs, ys => by
    cases ys with
    | nil => simp [DVal.beqList]
    | cons y ys =>
      simp only [DVal.beqList, Bool.and_eq_true, List.cons.injEq]
      exact fun h => ⟨DVal.beq_eq x y h.1, DVal.beqList_eq xs ys h.2⟩
/-- `DVal.beqFields` only accepts equal field lists. -/
theorem DVal.beqFields_eq :
    ∀ (xs ys : List (String × DVal)), DVal.beqFields xs ys = true → xs = ys
  | [], ys => by cases ys <;> simp [DVal.beqFields]
  | (k, x) :: xs, ys => by
    cases ys with
    | nil => simp [DVal.beqFields]
    | cons y ys =>
      obtain ⟨l, y⟩ := y
      simp only [DVal.beqFields, Bool.and_eq_true, List.cons.injEq, Prod.mk.injEq, beq_iff_eq]
      exact fun h => ⟨⟨h.1.1, DVal.beq_eq x y h.1.2⟩, DVal.beqFields_eq xs ys h.2⟩
end

mutual
/-- `DVal.beq` accepts every value against itself. -/
theorem DVal.beq_refl : ∀ (a : DVal), DVal.beq a a = true
  | .null => by simp [DVal.beq]
  | .bool x => by simp [DVal.beq]
  | .num x => by simp [DVal.beq]
  | .str x => by simp [DVal.beq]
  | .ts x => by simp [DVal.beq]
  | .arr xs => by simp [DVal.beq]; exact DVal.beqList_refl xs
  | .map fs => by simp [DVal.beq]; exact DVal.beqFields_refl fs
/-- `DVal.beqList` accepts every array against itself. -/
theorem DVal.beqList_refl : ∀ (xs : List DVal), DVal.beqList xs xs = true
  | [] => by simp [DVal.beqList]
  | x :: xs => by simp [DVal.beqList]; exact ⟨DVal.beq_refl x, DVal.beqList_refl xs⟩
/-- `DVal.beqFields` accepts every field list against itself. -/
theorem DVal.beqFields_refl : ∀ (xs : List (String × DVal)), DVal.beqFields xs xs = true
  | [] => by simp [DVal.beqFields]
  | (k, x) :: xs => by
    simp [DVal.beqFields]; exact ⟨DVal.beq_refl x, DVal.beqFields_refl xs⟩
end

/-- Equality of plain data is decidable, by `DVal.beq`. -/
instance instDecidableEqDVal : DecidableEq DVal := fun a b =>
  if h : DVal.beq a b = true then isTrue (DVal.beq_eq a b h)
  else isFalse (fun e => h (e ▸ DVal.beq_refl a))

/-- A possibly-`undefined` handler value as a JavaScript value. -/
def JsVal.ofOpt : Option DVal → JsVal
  | none => .undefined
  | some v => v.toJs

/-! ## JavaScript operators used by the handlers -/

/-- JavaScript truthiness of plain data: `null`, `false`, `0` and `""` are falsy. -/
def DVal.truthy : DVal → Bool
  | .null => false
  | .bool b => b
  | .num n => n != 0
  | .str s => s != ""
  | _ => true

/-- Truthiness of a possibly-`undefined` value; `undefined` is falsy. -/
def truthy : Option DVal → Bool
  | none => false
  | some v => v.truthy

/-- The expression `a || b` with a defined right operand. -/
def jsOr (a : Option DVal) (b : DVal) : DVal :=
  match a with
  | some v => if v.truthy then v else b
  | none => b

/-- A destructuring default `{ x = d }`: the default applies only to `undefined`. -/
def jsDefault (a : Option DVal) (d : DVal) : DVal :=
  match a with
  | some v => v
  | none => d

/-- Strict equality `a === b` between a value read from the store and a value from the
request.  Primitives compare by value; arrays, maps and timestamps are objects and two
of them coming from different places are never the same object. -/
def strictEq : Option DVal → Option DVal → Bool
  | none, none => true
  | some .null, some .null => true
  | some (.bool a), some (.bool b) => a == b
  | some (.num a), some (.num b) => a == b
  | some (.str a), some (.str b) => a == b
  | _, _ => false

/-- Destructuring `const { ... } = v`: a `TypeError` (`none`) on `null`, otherwise the
property reader of `v`.  Only maps carry the properties the handlers ask for. -/
def destructure : DVal → Option (String → Option DVal)
  | .null => none
  | .map fs => some (fun k => getField k fs)
  | _ => some (fun _ => none)

/-! ## The Firestore Admin SDK, as far as the handlers use it -/

/-- Status codes of `functions.https.HttpsError`, as far as they occur. -/
inductive HttpsCode where
  | unauthenticated
  | invalidArgument
  | notFound
  | internal
  deriving DecidableEq, Repr

/-- What a handler can throw. -/
inductive Err where
  /-- An `HttpsError` constructed by the handler itself. -/
  | https (code : HttpsCode)
  /-- A JavaScript `TypeError` raised by the runtime. -/
  | typeError
  /-- An `Error` thrown by the SDK while validating its arguments; no request is sent. -/
  | sdkInvalid
  /-- The backend rejected the write with `NOT_FOUND` (no document to update). -/
  | storeNotFound
  /-- The backend rejected the write with `ALREADY_EXISTS`. -/
  | storeAlreadyExists
  deriving DecidableEq, Repr

/-- A document path: its segments, `users/u/pantry/i` being `["users","u","pantry","i"]`. -/
abbrev Path := List String

/-- The database: the document stored at each path, if any. -/
abbrev Store := Path → Option Fields

/-- Store `d` at path `p`. -/
def Store.put (s : Store) (p : Path) (d : Fields) : Store :=
  fun q => if q = p then some d else s q

/-- What the platform supplies to one invocation: the commit timestamp of its write and
the identifier `CollectionReference.add` generates. -/
structure Env where
  now : Nat
  autoId : String

/-- Split a character list at every occurrence of `sep`. -/
def splitOnChar (sep : Char) : List Char → List (List Char)
  | [] => [[]]
  | c :: cs =>
    if c = sep then [] :: splitOnChar sep cs
    else
      match splitOnChar sep cs with
      | [] => [[c]]
      | seg :: rest => (c :: seg) :: rest

/-- Whether the text contains `//`. -/
def hasDoubleSlash : List Char → Bool
  | '/' :: '/' :: _ => true
  | _ :: cs => hasDoubleSlash cs
  | [] => false

/-- The segments of a relative resource path: split at `/`, empty segments dropped
(`ResourcePath.split`). -/
def segments (s : String) : List String :=
  ((splitOnChar '/' s.data).filter (fun seg => !seg.isEmpty)).map String.mk

/-- The reference `coll.doc(id)`: `id` must be a non-empty string without `//`, and the
resulting path must point to a document (an even number of segments); otherwise the SDK
throws (`none`). -/
def docRef (coll : Path) (id : Option DVal) : Option Path :=
  match id with
  | some (.str s) =>
    if s = "" ∨ hasDoubleSlash s.data = true then none
    else if (coll ++ segments s).length % 2 = 0 then some (coll ++ segments s)
    else none
  | _ => none

/-- The `arrayUnion` transform: append, in order, each element not already present. -/
def unionInto (cur : List DVal) : List DVal → List DVal
  | [] => cur
  | e :: es => unionInto (if cur.any (DVal.beq e) then cur else cur ++ [e]) es

mutual
/-- Validate a value to be written and resolve its sentinels (`validateUserInput`
followed by serialisation).  `inArr` records that the value sits inside an array.
`undefined` is rejected everywhere (`ignoreUndefinedProperties` is off: "Cannot use
undefined as a Firestore value"), and a `FieldValue` sentinel is rejected inside an
array ("FieldValue.serverTimestamp() cannot be used inside of an array"): the write
protocol addresses a transform by field path, and an array element has none.  Outside
arrays `serverTimestamp()` becomes the commit time.  `none` is the thrown `Error`. -/
def encode (now : Nat) : Bool → JsVal → Option DVal
  | _, .undefined => none
  | _, .null => some .null
  | _, .bool b => some (.bool b)
  | _, .num n => some (.num n)
  | _, .str s => some (.str s)
  | _, .ts t => some (.ts t)
  | _, .arr xs =>
    match encodeList now xs with
    | some ys => some (.arr ys)
    | none => none
  | inArr, .obj fs =>
    match encodeFields now inArr fs with
    | some gs => some (.map gs)
    | none => none
  | inArr, .serverTimestamp => if inArr then none else some (.ts now)
  | inArr, .arrayUnion es =>
    if inArr then none
    else
      match encodeElems now es with
      | some ys => some (.arr (unionInto [] ys))
      | none => none
/-- The elements of an array literal; each is inside an array. -/
def encodeList (now : Nat) : List JsVal → Option (List DVal)
  | [] => some []
  | x :: xs =>
    match encode now true x, encodeList now xs with
    | some y, some ys => some (y :: ys)
    | _, _ => none
/-- The operands of `arrayUnion` (`validateArrayElement`): none may itself be an array,
and each is validated as sitting inside an array, so a sentinel anywhere in an operand
is rejected. -/
def encodeElems (now : Nat) : List JsVal → Option (List DVal)
  | [] => some []
  | .arr _ :: _ => none
  | x :: xs =>
    match encode now true x, encodeElems now xs with
    | some y, some ys => some (y :: ys)
    | _, _ => none
/-- The fields of an object. -/
def encodeFields (now : Nat) : Bool → List (String × JsVal) → Option Fields
  | _, [] => some []
  | inArr, (k, x) :: xs =>
    match encode now inArr x, encodeFields now inArr xs with
    | some y, some ys => some ((k, y) :: ys)
    | _, _ => none
end

/-- The effect of `ref.set(data)` without merge: `data` must be an object that
validates; the document is replaced, whether or not it existed. -/
def Store.set (s : Store) (now : Nat) (p : Path) (data : JsVal) : Except Err Unit × Store :=
  match data with
  | .obj fs =>
    match encodeFields now false fs with
    | some d => (.ok (), s.put p d)
    | none => (.error .sdkInvalid, s)
  | _ => (.error .sdkInvalid, s)

/-- The effect of `coll.add(data)`: validate `data`, then create the document
`coll/autoId`; creation fails when that document already exists.  Returns the id. -/
def Store.add (s : Store) (env : Env) (coll : Path) (data : JsVal) :
    Except Err String × Store :=
  match data with
  | .obj fs =>
    match encodeFields env.now false fs with
    | some d =>
      match s (coll ++ [env.autoId]) with
      | none => (.ok env.autoId, s.put (coll ++ [env.autoId]) d)
      | some _ => (.error .storeAlreadyExists, s)
    | none => (.error .sdkInvalid, s)
  | _ => (.error .sdkInvalid, s)

/-- A key of an update map read as a field path (`FieldPath.fromArgument`): non-empty,
none of the characters `* ~ / [ ]`, split at `.` into non-empty segments. -/
def fieldPath (key : String) : Option (List String) :=
  if key.data.isEmpty || key.data.any (fun c => c ∈ ['*', '~', '/', '[', ']']) then none
  else if (splitOnChar '.' key.data).any (fun seg => seg.isEmpty) then none
  else some ((splitOnChar '.' key.data).map String.mk)

/-- What an update writes at one field path: a value, or an `arrayUnion` transform. -/
inductive FieldWrite where
  | value (v : DVal)
  | union (elems : List DVal)

/-- Validate the value given for one key of an update map. -/
def encodeUpdateValue (now : Nat) : JsVal → Option FieldWrite
  | .arrayUnion es =>
    match encodeElems now es with
    | some ys => some (.union ys)
    | none => none
  | v =>
    match encode now false v with
    | some y => some (.value y)
    | none => none

/-- Validate an update map: every key a field path, every value valid. -/
def parseUpdate (now : Nat) : List (String × JsVal) → Option (List (List String × FieldWrite))
  | [] => some []
  | (k, v) :: rest =>
    match fieldPath k, encodeUpdateValue now v, parseUpdate now rest with
    | some p, some w, some ws => some ((p, w) :: ws)
    | _, _, _ => none

/-- Whether some field path is specified twice or is a prefix of another
(`validateNoConflictingFields`). -/
def conflicts : List (List String) → Bool
  | [] => false
  | p :: ps => ps.any (fun q => p.isPrefixOf q || q.isPrefixOf p) || conflicts ps

/-- Read the value at a field path. -/
def getPath : List String → Fields → Option DVal
  | [], _ => none
  | [k], d => getField k d
  | k :: ks, d =>
    match getField k d with
    | some (.map m) => getPath ks m
    | _ => none

/-- Write the value at a field path, creating or replacing intermediate maps. -/
def setPath : List String → DVal → Fields → Fields
  | [], _, d => d
  | [k], v, d => setField k v d
  | k :: ks, v, d =>
    match getField k d with
    | some (.map m) => setField k (.map (setPath ks v m)) d
    | _ => setField k (.map (setPath ks v [])) d

/-- Apply one write of an update to a document. -/
def applyWrite (d : Fields) (w : List String × FieldWrite) : Fields :=
  match w.2 with
  | .value v => setPath w.1 v d
  | .union es =>
    match getPath w.1 d with
    | some (.arr cur) => setPath w.1 (.arr (unionInto cur es)) d
    | _ => setPath w.1 (.arr (unionInto [] es)) d

/-- The effect of `ref.update(data)`: the SDK validates `data` (a non-empty object whose
keys are non-conflicting field paths and whose values are valid) before sending anything;
the backend then fails with `NOT_FOUND` when the document is absent, and otherwise
writes the named fields, leaving the others as they are. -/
def Store.update (s : Store) (now : Nat) (p : Path) (data : JsVal) : Except Err Unit × Store :=
  match data with
  | .obj fs =>
    match parseUpdate now fs with
    | some ws =>
      if fs.isEmpty || conflicts (ws.map (fun w => w.1)) then (.error .sdkInvalid, s)
      else
        match s p with
        | some d => (.ok (), s.put p (ws.foldl applyWrite d))
        | none => (.error .storeNotFound, s)
    | none => (.error .sdkInvalid, s)
  | _ => (.error .sdkInvalid, s)

/-! ## The functions of `functions/index.js` -/

/-- The sequence `const r = await x; return f(r)`: a rejection of `x` is rethrown, and
either way the store is the one `x` left. -/
def awaitThen {α : Type} (x : Except Err α × Store) (f : α → DVal) : Except Err DVal × Store :=
  match x with
  | (.ok r, s') => (.ok (f r), s')
  | (.error e, s') => (.error e, s')

/-- The authentication data of a call, `context.auth`. -/
structure Auth where
  uid : String

/-- The call context; `auth` is absent when the request carries no valid identity. -/
structure Context where
  auth : Option Auth

/-- The expression `context.auth?.uid`. -/
def Context.uid (ctx : Context) : Option DVal :=
  match ctx.auth with
  | some a => some (.str a.uid)
  | none => none

/-- The wrapper `functions.https.onCall(handler)`: the caller receives the handler's
result, or the code of the `HttpsError` it threw; anything else thrown is reported to
the caller as `internal`. -/
def onCall (handler : Env → DVal → Context → Store → Except Err DVal × Store)
    (env : Env) (data : DVal) (ctx : Context) (s : Store) : Except HttpsCode DVal × Store :=
  match handler env data ctx s with
  | (.ok r, s') => (.ok r, s')
  | (.error (.https c), s') => (.error c, s')
  | (.error _, s') => (.error .internal, s')

/-- The user record passed to an `auth.user().onCreate` trigger; `email` is a string, or
`null` for an account without one. -/
structure UserRecord where
  uid : String
  email : DVal

/-- The data `createUserProfile` writes (lines 14-20). -/
def profileData (user : UserRecord) : JsVal :=
  .obj [("email", user.email.toJs),
        ("onboardDate", .serverTimestamp),
        ("onboarded", .bool false),
        ("pantry", .arr []),
        ("preferredProviders", .obj [])]

/-- The trigger `createUserProfile` (lines 11-23): `set` the profile at `users/uid`. -/
def createUserProfile (env : Env) (user : UserRecord) (s : Store) : Except Err Unit × Store :=
  match docRef ["users"] (some (.str user.uid)) with
  | none => (.error .sdkInvalid, s)
  | some userRef => Store.set s env.now userRef (profileData user)

/-- The object `newItem` of `addPantryItem` (lines 41-47). -/
def newItem (get : String → Option DVal) : JsVal :=
  .obj [("name", JsVal.ofOpt (get "name")),
        ("calories", (jsOr (get "calories") (.num 0)).toJs),
        ("servings", (jsOr (get "servings") (.num 1)).toJs),
        ("likability", (jsOr (get "likability") (.num 0)).toJs),
        ("macros", (jsOr (get "macros") (.map [])).toJs)]

/-- The handler of `addPantryItem` (lines 26-51). -/
def addPantryItem.handler (env : Env) (data : DVal) (ctx : Context) (s : Store) :
    Except Err DVal × Store :=
  let userId := ctx.uid
  if !truthy userId then (.error (.https .unauthenticated), s)
  else
    match destructure data with
    | none => (.error .typeError, s)
    | some get =>
      match docRef ["users"] userId with
      | none => (.error .sdkInvalid, s)
      | some userRef =>
        awaitThen (Store.add s env (userRef ++ ["pantry"]) (newItem get))
          (fun id => .map [("pantryItemId", .str id)])

/-- The callable `addPantryItem`. -/
def addPantryItem := onCall addPantryItem.handler

/-- The handler of `updatePantryItem` (lines 54-75). -/
def updatePantryItem.handler (env : Env) (data : DVal) (ctx : Context) (s : Store) :
    Except Err DVal × Store :=
  let userId := ctx.uid
  if !truthy userId then (.error (.https .unauthenticated), s)
  else
    match destructure data with
    | none => (.error .typeError, s)
    | some get =>
      let pantryItemId := get "pantryItemId"
      let fieldsToUpdate := get "fieldsToUpdate"
      if !truthy pantryItemId || !truthy fieldsToUpdate then
        (.error (.https .invalidArgument), s)
      else
        match docRef ["users"] userId with
        | none => (.error .sdkInvalid, s)
        | some userRef =>
          match docRef (userRef ++ ["pantry"]) pantryItemId with
          | none => (.error .sdkInvalid, s)
          | some pantryItemRef =>
            awaitThen (Store.update s env.now pantryItemRef (JsVal.ofOpt fieldsToUpdate))
              (fun _ => .map [("success", .bool true)])

/-- The callable `updatePantryItem`. -/
def updatePantryItem := onCall updatePantryItem.handler

/-- The object `newList` of `createShoppingList` (lines 91-96). -/
def newList (get : String → Option DVal) : JsVal :=
  .obj [("title", (jsDefault (get "title") (.str "My Shopping List")).toJs),
        ("store", (jsOr (get "store") .null).toJs),
        ("createdAt", .serverTimestamp),
        ("items", .arr [])]

/-- The handler of `createShoppingList` (lines 77-101). -/
def createShoppingList.handler (env : Env) (data : DVal) (ctx : Context) (s : Store) :
    Except Err DVal × Store :=
  let userId := ctx.uid
  if !truthy userId then (.error (.https .unauthenticated), s)
  else
    match destructure data with
    | none => (.error .typeError, s)
    | some get =>
      match docRef ["users"] userId with
      | none => (.error .sdkInvalid, s)
      | some userRef =>
        awaitThen (Store.add s env (userRef ++ ["shoppingLists"]) (newList get))
          (fun id => .map [("listId", .str id)])

/-- The callable `createShoppingList`. -/
def createShoppingList := onCall createShoppingList.handler

/-- The update map of `addItemToShoppingList` (lines 123-129): the `items` field gets an
`arrayUnion` whose single operand carries a `serverTimestamp` sentinel. -/
def appendItemData (itemName : Option DVal) (quantity : DVal) : JsVal :=
  .obj [("items", .arrayUnion [.obj [("itemName", JsVal.ofOpt itemName),
                                     ("quantity", quantity.toJs),
                                     ("addedAt", .serverTimestamp)]])]

/-- The handler of `addItemToShoppingList` (lines 103-132). -/
def addItemToShoppingList.handler (env : Env) (data : DVal) (ctx : Context) (s : Store) :
    Except Err DVal × Store :=
  let userId := ctx.uid
  if !truthy userId then (.error (.https .unauthenticated), s)
  else
    match destructure data with
    | none => (.error .typeError, s)
    | some get =>
      let listId := get "listId"
      let itemName := get "itemName"
      let quantity := jsDefault (get "quantity") (.num 1)
      if !truthy listId || !truthy itemName then (.error (.https .invalidArgument), s)
      else
        match docRef ["users"] userId with
        | none => (.error .sdkInvalid, s)
        | some userRef =>
          match docRef (userRef ++ ["shoppingLists"]) listId with
          | none => (.error .sdkInvalid, s)
          | some listRef =>
            awaitThen (Store.update s env.now listRef (appendItemData itemName quantity))
              (fun _ => .map [("success", .bool true)])

/-- The callable `addItemToShoppingList`. -/
def addItemToShoppingList := onCall addItemToShoppingList.handler

/-- The property `i.itemName` of an array element: a `TypeError` (`none`) on `null`,
`undefined` on anything that is not a map. -/
def itemNameOf : DVal → Option (Option DVal)
  | .null => none
  | .map fs => some (getField "itemName" fs)
  | _ => some none

/-- The call `xs.filter(i => i.itemName !== itemName)`; `none` is a `TypeError`. -/
def filterByName (itemName : Option DVal) : List DVal → Option (List DVal)
  | [] => some []
  | i :: rest =>
    match itemNameOf i, filterByName itemName rest with
    | some nm, some kept => some (if strictEq nm itemName then kept else i :: kept)
    | _, _ => none

/-- The expression `(items || []).filter(i => i.itemName !== itemName)` (line 160):
a falsy `items` counts as the empty array, and a truthy value that is not an array has
no `filter` method (`TypeError`, `none`). -/
def updatedItems (items : Option DVal) (itemName : Option DVal) : Option (List DVal) :=
  match jsOr items (.arr []) with
  | .arr xs => filterByName itemName xs
  | _ => none

/-- The handler of `removeItemFromShoppingList` (lines 134-165). -/
def removeItemFromShoppingList.handler (env : Env) (data : DVal) (ctx : Context) (s : Store) :
    Except Err DVal × Store :=
  let userId := ctx.uid
  if !truthy userId then (.error (.https .unauthenticated), s)
  else
    match destructure data with
    | none => (.error .typeError, s)
    | some get =>
      let listId := get "listId"
      let itemName := get "itemName"
      if !truthy listId || !truthy itemName then (.error (.https .invalidArgument), s)
      else
        match docRef ["users"] userId with
        | none => (.error .sdkInvalid, s)
        | some userRef =>
          match docRef (userRef ++ ["shoppingLists"]) listId with
          | none => (.error .sdkInvalid, s)
          | some listRef =>
            match s listRef with
            | none => (.error (.https .notFound), s)
            | some doc =>
              match updatedItems (getField "items" doc) itemName with
              | none => (.error .typeError, s)
              | some kept =>
                awaitThen
                  (Store.update s env.now listRef (.obj [("items", .arr (DVal.toJsList kept))]))
                  (fun _ => .map [("success", .bool true)])

/-- The callable `removeItemFromShoppingList`. -/
def removeItemFromShoppingList := onCall removeItemFromShoppingList.handler

/-! ## Vocabulary of the statements -/

/-- An identifier that is one path segment: non-empty and without `/`.  Identifiers
issued by the identity provider and by `add` are of this form. -/
@[reducible] def validId (s : String) : Prop := s ≠ "" ∧ '/' ∉ s.data

/-- A required payload field is missing: `undefined`, `null` or the empty string. -/
@[reducible] def Missing (v : Option DVal) : Prop :=
  v = none ∨ v = some .null ∨ v = some (.str "")

/-- The `itemName` of a list entry, `undefined` when the entry has none. -/
def entryName : DVal → Option DVal
  | .map fs => getField "itemName" fs
  | _ => none

/-- A key of an update map that names one top-level field: non-empty, without `.` and
without the characters the SDK refuses in a field path. -/
@[reducible] def plainKey (k : String) : Prop :=
  k ≠ "" ∧ ∀ c ∈ k.data, c ∉ ['.', '*', '~', '/', '[', ']']

/-- Assign the fields of `U` one after the other. -/
def assignAll (U : Fields) (d : Fields) : Fields :=
  U.foldl (fun acc kv => setField kv.1 kv.2 acc) d

/-- The profile of the example user `u1`, already onboarded. -/
def exampleProfile : Fields :=
  [("email", .str "u1@example.org"), ("onboardDate", .ts 1), ("onboarded", .bool true),
   ("pantry", .arr []), ("preferredProviders", .map [])]

/-- A pantry item of `u1`. -/
def exampleItem : Fields :=
  [("name", .str "Rice"), ("calories", .num 100), ("servings", .num 2),
   ("likability", .num 0), ("macros", .map [("fat", .num 1)])]

/-- A list entry. -/
def exampleEntry (name : String) (quantity : Int) (addedAt : Nat) : DVal :=
  .map [("itemName", .str name), ("quantity", .num quantity), ("addedAt", .ts addedAt)]

/-- A shopping list of `u1` holding Milk, Milk, Eggs. -/
def exampleList : Fields :=
  [("title", .str "Groceries"), ("store", .null), ("createdAt", .ts 2),
   ("items", .arr [exampleEntry "Milk" 1 3, exampleEntry "Milk" 1 4, exampleEntry "Eggs" 12 5])]

/-- A database with the profile, one pantry item and one shopping list of `u1`, and a
pantry item of another user `u2`. -/
def exampleStore : Store := fun q =>
  if q = ["users", "u1"] then some exampleProfile
  else if q = ["users", "u1", "pantry", "p1"] then some exampleItem
  else if q = ["users", "u1", "shoppingLists", "l1"] then some exampleList
  else if q = ["users", "u2", "pantry", "p1"] then some exampleItem
  else none

/-- The environment of the example calls: commit time 7, generated id `id0`. -/
def exampleEnv : Env := ⟨7, "id0"⟩

/-- The context of a call authenticated as `u1`. -/
def exampleCtx : Context := ⟨some ⟨"u1"⟩⟩

/-! ## Lemmas about the model -/

theorem splitOnChar_of_not_mem (sep : Char) (cs : List Char) (h : sep ∉ cs) :
    splitOnChar sep cs = [cs] := by
  induction cs with
  | nil => rfl
  | cons c cs ih =>
    have hc : c ≠ sep := fun e => h (e ▸ List.mem_cons_self _ _)
    have hcs : sep ∉ cs := fun m => h (List.mem_cons_of_mem _ m)
    simp [splitOnChar, hc, ih hcs]

theorem hasDoubleSlash_of_not_mem (cs : List Char) (h : '/' ∉ cs) :
    hasDoubleSlash cs = false := by
  induction cs with
  | nil => rfl
  | cons c cs ih =>
    have hc : c ≠ '/' := fun e => h (e ▸ List.mem_cons_self _ _)
    have hcs : '/' ∉ cs := fun m => h (List.mem_cons_of_mem _ m)
    cases cs with
    | nil => simp [hasDoubleSlash]
    | cons c' cs' =>
      rw [hasDoubleSlash.eq_def]
      split
      · rename_i heq
        simp only [List.cons.injEq] at heq
        exact absurd heq.1 hc
      · rename_i heq
        simp only [List.cons.injEq] at heq
        rw [← heq.2]
        exact ih hcs
      · rename_i heq
        simp at heq

theorem data_ne_nil_of_ne_empty (s : String) (h : s ≠ "") : s.data ≠ [] := by
  intro e
  apply h
  cases s
  simp_all

theorem segments_of_validId (s : String) (h : validId s) : segments s = [s] := by
  have h1 := data_ne_nil_of_ne_empty s h.1
  simp [segments, splitOnChar_of_not_mem '/' s.data h.2, h1]

theorem docRef_of_validId (coll : Path) (id : String) (h : validId id)
    (hc : coll.length % 2 = 1) :
    docRef coll (some (.str id)) = some (coll ++ [id]) := by
  have hlen : (coll.length + 1) % 2 = 0 := by omega
  simp [docRef, h.1, hasDoubleSlash_of_not_mem _ h.2, segments_of_validId id h, hlen]

mutual
theorem encode_toJs (now : Nat) (b : Bool) : ∀ v : DVal, encode now b v.toJs = some v
  | .null => by simp [DVal.toJs, encode]
  | .bool _ => by simp [DVal.toJs, encode]
  | .num _ => by simp [DVal.toJs, encode]
  | .str _ => by simp [DVal.toJs, encode]
  | .ts _ => by simp [DVal.toJs, encode]
  | .arr xs => by simp [DVal.toJs, encode, encodeList_toJs now xs]
  | .map fs => by simp [DVal.toJs, encode, encodeFields_toJs now b fs]
theorem encodeList_toJs (now : Nat) : ∀ xs : List DVal, encodeList now (DVal.toJsList xs) = some xs
  | [] => by simp [DVal.toJsList, encodeList]
  | x :: xs => by
    simp [DVal.toJsList, encodeList, encode_toJs now true x, encodeList_toJs now xs]
theorem encodeFields_toJs (now : Nat) (b : Bool) :
    ∀ fs : List (String × DVal), encodeFields now b (DVal.toJsFields fs) = some fs
  | [] => by simp [DVal.toJsFields, encodeFields]
  | (k, x) :: xs => by
    simp [DVal.toJsFields, encodeFields, encode_toJs now b x, encodeFields_toJs now b xs]
end

theorem truthy_uid (u : String) (h : u ≠ "") : truthy (some (.str u)) = true := by
  simp [truthy, DVal.truthy, h]

/-! ## Rejections that precede any store access -/

/-- C4: a call whose context carries no caller identity (`auth` absent, or an empty
`uid`) is rejected with `unauthenticated` by each of the five callables, for every
payload (also `null`, or one lacking required fields) and every store, and the store is
left as it was. -/
theorem unauthenticated_rejected (env : Env) (data : DVal) (ctx : Context) (s : Store)
    (h : ctx.auth = none ∨ ctx.auth = some ⟨""⟩) :
    addPantryItem env data ctx s = (.error .unauthenticated, s) ∧
    updatePantryItem env data ctx s = (.error .unauthenticated, s) ∧
    createShoppingList env data ctx s = (.error .unauthenticated, s) ∧
    addItemToShoppingList env data ctx s = (.error .unauthenticated, s) ∧
    removeItemFromShoppingList env data ctx s = (.error .unauthenticated, s) := by
  have hu : truthy ctx.uid = false := by
    rcases h with h | h <;> simp [Context.uid, h, truthy, DVal.truthy]
  refine ⟨?_, ?_, ?_, ?_, ?_⟩
  · simp [addPantryItem, onCall, addPantryItem.handler, hu]
  · simp [updatePantryItem, onCall, updatePantryItem.handler, hu]
  · simp [createShoppingList, onCall, createShoppingList.handler, hu]
  · simp [addItemToShoppingList, onCall, addItemToShoppingList.handler, hu]
  · simp [removeItemFromShoppingList, onCall, removeItemFromShoppingList.handler, hu]

/-- C4 at a concrete input: no `auth`, an empty payload object, the empty store. -/
theorem unauthenticated_rejected_witness :
    ((⟨none⟩ : Context).auth = none ∨ (⟨none⟩ : Context).auth = some ⟨""⟩) ∧
    addPantryItem ⟨7, "id0"⟩ (.map []) ⟨none⟩ (fun _ => none)
      = (.error .unauthenticated, fun _ => none) ∧
    updatePantryItem ⟨7, "id0"⟩ (.map []) ⟨none⟩ (fun _ => none)
      = (.error .unauthenticated, fun _ => none) ∧
    createShoppingList ⟨7, "id0"⟩ (.map []) ⟨none⟩ (fun _ => none)
      = (.error .unauthenticated, fun _ => none) ∧
    addItemToShoppingList ⟨7, "id0"⟩ (.map []) ⟨none⟩ (fun _ => none)
      = (.error .unauthenticated, fun _ => none) ∧
    removeItemFromShoppingList ⟨7, "id0"⟩ (.map []) ⟨none⟩ (fun _ => none)
      = (.error .unauthenticated, fun _ => none) :=
  ⟨Or.inl rfl, unauthenticated_rejected ⟨7, "id0"⟩ (.map []) ⟨none⟩ (fun _ => none) (Or.inl rfl)⟩

theorem not_truthy_of_missing (v : Option DVal) (h : Missing v) : truthy v = false := by
  rcases h with h | h | h <;> simp [h, truthy, DVal.truthy]

/-- C5: for an authenticated caller, any payload object and any store (whether or not
the referenced document exists), `updatePantryItem` with `pantryItemId` or
`fieldsToUpdate` missing, and `addItemToShoppingList` and `removeItemFromShoppingList`
with `listId` or `itemName` missing (undefined, null or empty), fail with
`invalid-argument` and leave the store as it was. -/
theorem missing_argument_rejected (env : Env) (fs : Fields) (u : String) (s : Store)
    (hu : u ≠ "") :
    (Missing (getField "pantryItemId" fs) ∨ Missing (getField "fieldsToUpdate" fs) →
      updatePantryItem env (.map fs) ⟨some ⟨u⟩⟩ s = (.error .invalidArgument, s)) ∧
    (Missing (getField "listId" fs) ∨ Missing (getField "itemName" fs) →
      addItemToShoppingList env (.map fs) ⟨some ⟨u⟩⟩ s = (.error .invalidArgument, s) ∧
      removeItemFromShoppingList env (.map fs) ⟨some ⟨u⟩⟩ s
        = (.error .invalidArgument, s)) := by
  have hauth : truthy (Context.uid ⟨some ⟨u⟩⟩) = true := truthy_uid u hu
  refine ⟨?_, ?_⟩
  · intro h
    have hm : (!truthy (getField "pantryItemId" fs) || !truthy (getField "fieldsToUpdate" fs))
        = true := by
      rcases h with h | h <;> simp [not_truthy_of_missing _ h]
    simp [updatePantryItem, onCall, updatePantryItem.handler, hauth, destructure, hm]
  · intro h
    have hm : (!truthy (getField "listId" fs) || !truthy (getField "itemName" fs)) = true := by
      rcases h with h | h <;> simp [not_truthy_of_missing _ h]
    constructor
    · simp [addItemToShoppingList, onCall, addItemToShoppingList.handler, hauth, destructure, hm]
    · simp [removeItemFromShoppingList, onCall, removeItemFromShoppingList.handler, hauth,
        destructure, hm]

/-! ## Updates that name top-level fields -/

theorem fieldPath_of_plainKey (k : String) (h : plainKey k) : fieldPath k = some [k] := by
  have h1 : k.data ≠ [] := data_ne_nil_of_ne_empty k h.1
  have hdot : '.' ∉ k.data := fun m => h.2 '.' m (by simp)
  have hany : ∀ x ∈ k.data, ¬x = '*' ∧ ¬x = '~' ∧ ¬x = '/' ∧ ¬x = '[' ∧ ¬x = ']' := by
    intro c hc
    have := h.2 c hc
    simp only [List.mem_cons, not_or] at this
    exact ⟨this.2.1, this.2.2.1, this.2.2.2.1, this.2.2.2.2.1, this.2.2.2.2.2.1⟩
  have hemp : k.data.isEmpty = false := by
    cases hk : k.data with
    | nil => exact absurd hk h1
    | cons a b => rfl
  simp [fieldPath, hemp, splitOnChar_of_not_mem '.' k.data hdot]
  exact hany

theorem encodeUpdateValue_toJs (now : Nat) (v : DVal) :
    encodeUpdateValue now v.toJs = some (.value v) := by
  have h := encode_toJs now false v
  cases v <;> simp_all [DVal.toJs, encodeUpdateValue]

theorem parseUpdate_plain (now : Nat) (U : Fields) (h : ∀ kv ∈ U, plainKey kv.1) :
    parseUpdate now (DVal.toJsFields U)
      = some (U.map (fun kv => ([kv.1], FieldWrite.value kv.2))) := by
  induction U with
  | nil => simp [DVal.toJsFields, parseUpdate]
  | cons kv rest ih =>
    obtain ⟨k, v⟩ := kv
    have hk : plainKey k := h (k, v) (List.mem_cons_self _ _)
    have hr := ih (fun kv m => h kv (List.mem_cons_of_mem _ m))
    simp [DVal.toJsFields, parseUpdate, fieldPath_of_plainKey k hk,
      encodeUpdateValue_toJs, hr]

theorem conflicts_singletons (ks : List String) (h : ks.Nodup) :
    conflicts (ks.map (fun k => [k])) = false := by
  induction ks with
  | nil => rfl
  | cons k rest ih =>
    rw [List.nodup_cons] at h
    simp only [List.map_cons, conflicts, ih h.2, Bool.or_false, List.any_eq_false,
      List.mem_map, forall_exists_index, and_imp, forall_apply_eq_imp_iff₂]
    intro a ha
    have hne : k ≠ a := fun e => h.1 (e ▸ ha)
    simp [List.isPrefixOf, hne, Ne.symm hne]

theorem foldl_applyWrite_plain (U : Fields) (d : Fields) :
    (U.map (fun kv => ([kv.1], FieldWrite.value kv.2))).foldl applyWrite d = assignAll U d := by
  unfold assignAll
  induction U generalizing d with
  | nil => rfl
  | cons kv rest ih =>
    simp only [List.map_cons, List.foldl_cons]
    rw [← ih]
    rfl

/-- An update whose map names distinct top-level fields, applied to an existing
document, succeeds and assigns exactly those fields. -/
theorem update_plain (s : Store) (now : Nat) (p : Path) (d : Fields) (U : Fields)
    (hne : U ≠ []) (hk : ∀ kv ∈ U, plainKey kv.1) (hn : (U.map Prod.fst).Nodup)
    (hd : s p = some d) :
    Store.update s now p (.obj (DVal.toJsFields U)) = (.ok (), s.put p (assignAll U d)) := by
  have hemp : (DVal.toJsFields U).isEmpty = false := by
    cases U with
    | nil => exact absurd rfl hne
    | cons kv rest => obtain ⟨k, v⟩ := kv; rfl
  have hc : conflicts ((U.map (fun kv => ([kv.1], FieldWrite.value kv.2))).map (fun w => w.1))
      = false := by
    have := conflicts_singletons (U.map Prod.fst) hn
    simpa [List.map_map, Function.comp] using this
  simp only [Store.update, parseUpdate_plain now U hk, hemp, hc, hd, Bool.or_self,
    Bool.false_eq_true, if_false, foldl_applyWrite_plain]

/-! ## Removing items from a shopping list -/

theorem strictEq_str (v : Option DVal) (n : String) :
    strictEq v (some (.str n)) = decide (v = some (.str n)) := by
  cases v with
  | none => simp [strictEq]
  | some x => cases x <;> simp [strictEq, beq_eq_decide]

theorem items_plainKey : plainKey "items" := by decide

theorem filterByName_str (n : String) (L : List DVal) (hL : ∀ e ∈ L, e ≠ .null) :
    filterByName (some (.str n)) L
      = some (L.filter (fun e => decide (entryName e ≠ some (.str n)))) := by
  induction L with
  | nil => rfl
  | cons e rest ih =>
    have hr := ih (fun x m => hL x (List.mem_cons_of_mem _ m))
    have he : e ≠ .null := hL e (List.mem_cons_self _ _)
    cases e with
    | null => exact absurd rfl he
    | map fs =>
      simp only [filterByName, itemNameOf, hr, strictEq_str, entryName, List.filter_cons]
      by_cases hx : getField "itemName" fs = some (.str n) <;> simp [hx]
    | bool b => simp [filterByName, itemNameOf, hr, strictEq, entryName, List.filter_cons]
    | num b => simp [filterByName, itemNameOf, hr, strictEq, entryName, List.filter_cons]
    | str b => simp [filterByName, itemNameOf, hr, strictEq, entryName, List.filter_cons]
    | ts b => simp [filterByName, itemNameOf, hr, strictEq, entryName, List.filter_cons]
    | arr b => simp [filterByName, itemNameOf, hr, strictEq, entryName, List.filter_cons]

/-- C1: for an authenticated caller `u`, an existing shopping list `lid` of that caller
whose `items` is the sequence `L` (of entries, none of them `null`) and a non-empty
`itemName` `n`, `removeItemFromShoppingList` returns `{success: true}` and leaves the
list with `items` equal to `L` without the entries whose `itemName` is exactly `n`: all
of them are removed, the others are kept in their order; the other fields of the list
and all other documents are unchanged. -/
theorem removeItemFromShoppingList_removes_every_match (env : Env) (fs : Fields)
    (u lid n : String) (s : Store) (doc : Fields) (L : List DVal)
    (hu : validId u) (hlid : validId lid) (hn : n ≠ "")
    (hl : getField "listId" fs = some (.str lid))
    (hi : getField "itemName" fs = some (.str n))
    (hdoc : s ["users", u, "shoppingLists", lid] = some doc)
    (hitems : getField "items" doc = some (.arr L))
    (hL : ∀ e ∈ L, e ≠ .null) :
    removeItemFromShoppingList env (.map fs) ⟨some ⟨u⟩⟩ s
      = (.ok (.map [("success", .bool true)]),
         s.put ["users", u, "shoppingLists", lid]
           (setField "items"
             (.arr (L.filter (fun e => decide (entryName e ≠ some (.str n))))) doc)) := by
  have hauth : truthy (Context.uid ⟨some ⟨u⟩⟩) = true := truthy_uid u hu.1
  have htl : truthy (some (DVal.str lid)) = true := truthy_uid lid hlid.1
  have htn : truthy (some (DVal.str n)) = true := truthy_uid n hn
  have hur : docRef ["users"] (Context.uid ⟨some ⟨u⟩⟩) = some ["users", u] :=
    docRef_of_validId ["users"] u hu rfl
  have hlr : docRef (["users", u] ++ ["shoppingLists"]) (some (.str lid))
      = some ["users", u, "shoppingLists", lid] :=
    docRef_of_validId _ lid hlid (by simp)
  have hup := update_plain s env.now ["users", u, "shoppingLists", lid] doc
    [("items", .arr (L.filter (fun e => decide (entryName e ≠ some (.str n)))))]
    (by simp) (by intro kv hkv; simp at hkv; subst hkv; exact items_plainKey) (by simp) hdoc
  simp only [DVal.toJsFields, DVal.toJs] at hup
  simp only [removeItemFromShoppingList, onCall, removeItemFromShoppingList.handler, hauth,
    destructure, hl, hi, htl, htn, hur, hlr, hdoc, hitems, updatedItems, jsOr, DVal.truthy,
    filterByName_str n L hL, hup, assignAll, awaitThen, List.foldl, Bool.not_true, Bool.or_self,
    Bool.false_eq_true, if_false, if_true]

/-- C1 on the list Milk, Milk, Eggs: removing `"Milk"` leaves the Eggs entry alone. -/
theorem removeItemFromShoppingList_removes_every_match_witness :
    removeItemFromShoppingList exampleEnv
        (.map [("listId", .str "l1"), ("itemName", .str "Milk")]) exampleCtx exampleStore
      = (.ok (.map [("success", .bool true)]),
         exampleStore.put ["users", "u1", "shoppingLists", "l1"]
           [("title", .str "Groceries"), ("store", .null), ("createdAt", .ts 2),
            ("items", .arr [exampleEntry "Eggs" 12 5])]) :=
  (removeItemFromShoppingList_removes_every_match exampleEnv
    [("listId", .str "l1"), ("itemName", .str "Milk")] "u1" "l1" "Milk" exampleStore
    exampleList [exampleEntry "Milk" 1 3, exampleEntry "Milk" 1 4, exampleEntry "Eggs" 12 5]
    (by decide) (by decide) (by decide) rfl rfl rfl rfl (by decide)).trans rfl

/-- C5 at concrete inputs: `updatePantryItem` without `pantryItemId` and with an empty
`fieldsToUpdate`, and the two list operations without `itemName`, on a store that holds
the list `l1`. -/
theorem missing_argument_rejected_witness :
    "u1" ≠ "" ∧
    updatePantryItem exampleEnv (.map [("fieldsToUpdate", .map [])]) exampleCtx exampleStore
      = (.error .invalidArgument, exampleStore) ∧
    addItemToShoppingList exampleEnv (.map [("listId", .str "l1")]) exampleCtx exampleStore
      = (.error .invalidArgument, exampleStore) ∧
    removeItemFromShoppingList exampleEnv (.map [("listId", .str "l1")]) exampleCtx exampleStore
      = (.error .invalidArgument, exampleStore) :=
  ⟨by decide,
   (missing_argument_rejected exampleEnv [("fieldsToUpdate", .map [])] "u1" exampleStore
      (by decide)).1 (Or.inl (Or.inl rfl)),
   (missing_argument_rejected exampleEnv [("listId", .str "l1")] "u1" exampleStore
      (by decide)).2 (Or.inr (Or.inl rfl))⟩

/-! ## Provisioning the profile -/

/-- C3, as amended: every invocation of `createUserProfile` writes the profile document
`users/uid` anew.  Whatever the store held there (nothing, or a profile already
onboarded or otherwise modified), the document afterwards consists of the given email,
`onboardDate` equal to the commit time of this invocation, `onboarded: false`, an empty
`pantry` and empty `preferredProviders`; no other document changes. -/
theorem createUserProfile_overwrites_profile (env : Env) (user : UserRecord) (s : Store)
    (hu : validId user.uid) :
    createUserProfile env user s
      = (.ok (), s.put ["users", user.uid]
          [("email", user.email), ("onboardDate", .ts env.now), ("onboarded", .bool false),
           ("pantry", .arr []), ("preferredProviders", .map [])]) := by
  have hr : docRef ["users"] (some (.str user.uid)) = some ["users", user.uid] :=
    docRef_of_validId ["users"] user.uid hu rfl
  simp [createUserProfile, hr, Store.set, profileData, encodeFields, encode,
    encode_toJs, encodeList]

/-- C3 amended, for the onboarded example user: the profile is replaced. -/
theorem createUserProfile_overwrites_profile_witness :
    createUserProfile exampleEnv ⟨"u1", .str "u1@example.org"⟩ exampleStore
      = (.ok (), exampleStore.put ["users", "u1"]
          [("email", .str "u1@example.org"), ("onboardDate", .ts 7),
           ("onboarded", .bool false), ("pantry", .arr []), ("preferredProviders", .map [])]) :=
  createUserProfile_overwrites_profile exampleEnv ⟨"u1", .str "u1@example.org"⟩ exampleStore
    (by decide)

/-- C3 fails: the example user `u1` is onboarded (`onboarded: true`, `onboardDate` 1);
a second delivery of the creation event resets `onboarded` to `false` and moves
`onboardDate` to the new commit time, so the profile document is not left unchanged. -/
theorem createUserProfile_not_idempotent :
    exampleStore ["users", "u1"] = some exampleProfile ∧
    getField "onboarded" exampleProfile = some (.bool true) ∧
    ((createUserProfile exampleEnv ⟨"u1", .str "u1@example.org"⟩ exampleStore).2
        ["users", "u1"]).bind (getField "onboarded") = some (.bool false) ∧
    ((createUserProfile exampleEnv ⟨"u1", .str "u1@example.org"⟩ exampleStore).2
        ["users", "u1"]).bind (getField "onboardDate") = some (.ts 7) ∧
    ¬ (createUserProfile exampleEnv ⟨"u1", .str "u1@example.org"⟩ exampleStore).2
        ["users", "u1"] = exampleStore ["users", "u1"] := by
  refine ⟨rfl, rfl, rfl, rfl, ?_⟩
  decide

/-! ## Adding a pantry item -/

/-- C9 fails on the code: for the authenticated example caller, the payload
`{name: "Rice", servings: 0}` supplies the valid value `servings = 0`, yet the created
item stores `servings: 1`, because `servings || 1` also replaces a supplied zero. -/
theorem addPantryItem_zero_servings_replaced :
    addPantryItem exampleEnv (.map [("name", .str "Rice"), ("servings", .num 0)])
        exampleCtx exampleStore
      = (.ok (.map [("pantryItemId", .str "id0")]),
         exampleStore.put ["users", "u1", "pantry", "id0"]
           [("name", .str "Rice"), ("calories", .num 0), ("servings", .num 1),
            ("likability", .num 0), ("macros", .map [])]) := by
  rfl

/-- The update issued by `addItemToShoppingList` never passes the SDK's validation: the
operand of `arrayUnion` contains `FieldValue.serverTimestamp()`, and a sentinel inside
an array element is refused before anything is sent to the store. -/
theorem update_appendItemData (s : Store) (now : Nat) (p : Path) (itemName : Option DVal)
    (quantity : DVal) :
    Store.update s now p (appendItemData itemName quantity) = (.error .sdkInvalid, s) := by
  have h3 : ∀ b, encodeFields now true [("addedAt", JsVal.serverTimestamp)] ≠ some b := by
    simp [encodeFields, encode]
  have h : encodeElems now [.obj [("itemName", JsVal.ofOpt itemName),
      ("quantity", quantity.toJs), ("addedAt", .serverTimestamp)]] = none := by
    simp only [encodeElems, encode, encodeFields]
    cases encode now true (JsVal.ofOpt itemName) <;> cases encode now true quantity.toJs <;> rfl
  simp [Store.update, appendItemData, parseUpdate, encodeUpdateValue, h]

theorem addItemToShoppingList_handler_fails (env : Env) (data : DVal) (ctx : Context)
    (s : Store) : ∃ e, addItemToShoppingList.handler env data ctx s = (.error e, s) := by
  unfold addItemToShoppingList.handler
  simp only
  split
  · exact ⟨_, rfl⟩
  · cases destructure data with
    | none => exact ⟨_, rfl⟩
    | some get =>
      simp only
      split
      · exact ⟨_, rfl⟩
      · cases docRef ["users"] ctx.uid with
        | none => exact ⟨_, rfl⟩
        | some userRef =>
          simp only
          cases docRef (userRef ++ ["shoppingLists"]) (get "listId") with
          | none => exact ⟨_, rfl⟩
          | some listRef =>
            simp only [update_appendItemData, awaitThen]
            exact ⟨_, rfl⟩

theorem addItemToShoppingList_fails (env : Env) (data : DVal) (ctx : Context) (s : Store) :
    ∃ c, addItemToShoppingList env data ctx s = (.error c, s) := by
  obtain ⟨e, he⟩ := addItemToShoppingList_handler_fails env data ctx s
  unfold addItemToShoppingList onCall
  rw [he]
  cases e <;> exact ⟨_, rfl⟩

/-- C2 fails on the code: `addItemToShoppingList` never appends.  For every
environment, payload, context and store the call ends in an error and leaves the store
as it was; for the authenticated example caller and the payload
`{listId: "l1", itemName: "Milk", quantity: 1}` naming the existing list `l1`, the SDK
refuses the update (`sdkInvalid`), the caller is told `internal`, and `items` stays
Milk, Milk, Eggs. -/
theorem addItemToShoppingList_never_appends :
    (∀ (env : Env) (data : DVal) (ctx : Context) (s : Store),
      ∃ c, addItemToShoppingList env data ctx s = (.error c, s)) ∧
    addItemToShoppingList.handler exampleEnv
        (.map [("listId", .str "l1"), ("itemName", .str "Milk"), ("quantity", .num 1)])
        exampleCtx exampleStore
      = (.error .sdkInvalid, exampleStore) ∧
    addItemToShoppingList exampleEnv
        (.map [("listId", .str "l1"), ("itemName", .str "Milk"), ("quantity", .num 1)])
        exampleCtx exampleStore
      = (.error .internal, exampleStore) ∧
    exampleStore ["users", "u1", "shoppingLists", "l1"] = some exampleList :=
  ⟨addItemToShoppingList_fails, rfl, rfl, rfl⟩

/-- C6 fails on the code for two of the three operations.  On the example store, which
has neither the pantry item nor the list `nope` of `u1`: `removeItemFromShoppingList`
fails with `not-found`; `updatePantryItem` is rejected by the store with `NOT_FOUND`,
which the handler does not turn into an `HttpsError`, so the caller is told `internal`;
`addItemToShoppingList` is refused by the SDK before the store is asked, and the caller
is told `internal` as well.  In all three cases the store is left as it was. -/
theorem missing_document_not_reported_as_notFound :
    exampleStore ["users", "u1", "pantry", "nope"] = none ∧
    exampleStore ["users", "u1", "shoppingLists", "nope"] = none ∧
    removeItemFromShoppingList exampleEnv
        (.map [("listId", .str "nope"), ("itemName", .str "Milk")]) exampleCtx exampleStore
      = (.error .notFound, exampleStore) ∧
    updatePantryItem.handler exampleEnv
        (.map [("pantryItemId", .str "nope"),
               ("fieldsToUpdate", .map [("calories", .num 200)])]) exampleCtx exampleStore
      = (.error .storeNotFound, exampleStore) ∧
    updatePantryItem exampleEnv
        (.map [("pantryItemId", .str "nope"),
               ("fieldsToUpdate", .map [("calories", .num 200)])]) exampleCtx exampleStore
      = (.error .internal, exampleStore) ∧
    addItemToShoppingList.handler exampleEnv
        (.map [("listId", .str "nope"), ("itemName", .str "Milk")]) exampleCtx exampleStore
      = (.error .sdkInvalid, exampleStore) ∧
    addItemToShoppingList exampleEnv
        (.map [("listId", .str "nope"), ("itemName", .str "Milk")]) exampleCtx exampleStore
      = (.error .internal, exampleStore) :=
  ⟨rfl, rfl, rfl, rfl, rfl, rfl, rfl⟩

end Micropantry
